import Mathlib

/-!
Verification of the comit-rs swap daemon against its specification.

The Lean definitions below are a shallow embedding of the Rust sources:

* `crypto`        — SHA-256 (the spec assumes it from a library; modelled from FIPS 180-4)
* `halight`       — src/cnd/src/swap_protocols/halight/connector.rs
* `hlnbtc`        — src/cnd/src/swap_protocols/hlnbtc/connector.rs
* `announce`      — src/cnd/src/network/protocols/announce/behaviour.rs
* `comit_client`  — src/application/comit_node/src/comit_client/factory.rs
* `http_api`      — src/application/comit_node/src/http_api/with_swap_types.rs

IO is embedded by passing the data the code would fetch as explicit arguments:
a single HTTP exchange becomes a value (status code plus the outcomes of the
possible body deserializations), and a polling loop becomes structural
recursion over the list of successive responses, where the result `ok none`
means "every response so far left the loop still waiting".
-/

set_option maxRecDepth 4000

instance {ε α : Type} [DecidableEq ε] [DecidableEq α] : DecidableEq (Except ε α)
  | Except.ok a, Except.ok b =>
    if h : a = b then isTrue (by rw [h]) else isFalse (fun hc => h (Except.ok.inj hc))
  | Except.ok _, Except.error _ => isFalse (fun hc => Except.noConfusion hc)
  | Except.error _, Except.ok _ => isFalse (fun hc => Except.noConfusion hc)
  | Except.error a, Except.error b =>
    if h : a = b then isTrue (by rw [h]) else isFalse (fun hc => h (Except.error.inj hc))

namespace crypto

/-- Modelled from the spec: SHA-256.  The spec (section 1, non-goals) assumes the
cryptographic primitives SHA-256 and secp256k1 are provided by a library, so no
Rust source for SHA-256 is part of this repository.  This is FIPS 180-4 SHA-256
over a list of bytes (each a `Nat` below 256).  Right rotation of a 32-bit word. -/
def rotr (n x : Nat) : Nat := ((x >>> n) ||| (x <<< (32 - n))) &&& 0xFFFFFFFF

/-- Addition of 32-bit words, wrapping modulo 2^32. -/
def add32 (a b : Nat) : Nat := (a + b) % 4294967296

/-- FIPS 180-4 Σ0. -/
def bigSigma0 (x : Nat) : Nat := (rotr 2 x) ^^^ (rotr 13 x) ^^^ (rotr 22 x)

/-- FIPS 180-4 Σ1. -/
def bigSigma1 (x : Nat) : Nat := (rotr 6 x) ^^^ (rotr 11 x) ^^^ (rotr 25 x)

/-- FIPS 180-4 σ0. -/
def smallSigma0 (x : Nat) : Nat := (rotr 7 x) ^^^ (rotr 18 x) ^^^ (x >>> 3)

/-- FIPS 180-4 σ1. -/
def smallSigma1 (x : Nat) : Nat := (rotr 17 x) ^^^ (rotr 19 x) ^^^ (x >>> 10)

/-- FIPS 180-4 Ch; ¬x on 32 bits is x XOR 0xFFFFFFFF. -/
def ch (x y z : Nat) : Nat := (x &&& y) ^^^ ((x ^^^ 0xFFFFFFFF) &&& z)

/-- FIPS 180-4 Maj. -/
def maj (x y z : Nat) : Nat := (x &&& y) ^^^ (x &&& z) ^^^ (y &&& z)

/-- The 64 SHA-256 round constants, in rounds 0 to 63 order, grouped by eight. -/
def K : List Nat := List.flatten
  [[0x428a2f98, 0x71374491, 0xb5c0fbcf, 0xe9b5dba5],
   [0x3956c25b, 0x59f111f1, 0x923f82a4, 0xab1c5ed5],
   [0xd807aa98, 0x12835b01, 0x243185be, 0x550c7dc3],
   [0x72be5d74, 0x80deb1fe, 0x9bdc06a7, 0xc19bf174],
   [0xe49b69c1, 0xefbe4786, 0x0fc19dc6, 0x240ca1cc],
   [0x2de92c6f, 0x4a7484aa, 0x5cb0a9dc, 0x76f988da],
   [0x983e5152, 0xa831c66d, 0xb00327c8, 0xbf597fc7],
   [0xc6e00bf3, 0xd5a79147, 0x06ca6351, 0x14292967],
   [0x27b70a85, 0x2e1b2138, 0x4d2c6dfc, 0x53380d13],
   [0x650a7354, 0x766a0abb, 0x81c2c92e, 0x92722c85],
   [0xa2bfe8a1, 0xa81a664b, 0xc24b8b70, 0xc76c51a3],
   [0xd192e819, 0xd6990624, 0xf40e3585, 0x106aa070],
   [0x19a4c116, 0x1e376c08, 0x2748774c, 0x34b0bcb5],
   [0x391c0cb3, 0x4ed8aa4a, 0x5b9cca4f, 0x682e6ff3],
   [0x748f82ee, 0x78a5636f, 0x84c87814, 0x8cc70208],
   [0x90befffa, 0xa4506ceb, 0xbef9a3f7, 0xc67178f2]]

/-- The SHA-256 initial hash value H(0), words 0 to 7. -/
def H0 : List Nat := List.flatten
  [[0x6a09e667, 0xbb67ae85, 0x3c6ef372, 0xa54ff53a],
   [0x510e527f, 0x9b05688c, 0x1f83d9ab, 0x5be0cd19]]

/-- The message length in bits as 8 big-endian bytes. -/
def lengthBytes (n : Nat) : List Nat :=
  [(n >>> 56) &&& 255, (n >>> 48) &&& 255, (n >>> 40) &&& 255, (n >>> 32) &&& 255,
   (n >>> 24) &&& 255, (n >>> 16) &&& 255, (n >>> 8) &&& 255, n &&& 255]

/-- SHA-256 padding: append 0x80, zero bytes up to 56 mod 64, then the bit length. -/
def pad (msg : List Nat) : List Nat :=
  let len := msg.length
  let zeros := (119 - (len % 64)) % 64
  msg ++ [0x80] ++ List.replicate zeros 0 ++ lengthBytes (len * 8)

/-- Groups of 4 bytes into big-endian 32-bit words. -/
def toWords : List Nat → List Nat
  | b0 :: b1 :: b2 :: b3 :: rest =>
      ((b0 <<< 24) ||| (b1 <<< 16) ||| (b2 <<< 8) ||| b3) :: toWords rest
  | _ => []

/-- Splits a byte list into 64-byte chunks; fuel makes the recursion structural. -/
def chunk64Go : Nat → List Nat → List (List Nat)
  | 0, _ => []
  | _, [] => []
  | fuel + 1, x :: rest => (x :: rest.take 63) :: chunk64Go fuel (rest.drop 63)

/-- Splits a byte list into 64-byte chunks. -/
def chunk64 (l : List Nat) : List (List Nat) := chunk64Go l.length l

/-- Extends the 16 message-schedule words of a block to 64. -/
def expand (w : Array Nat) : Array Nat :=
  (List.range 48).foldl
    (fun w i =>
      let t := i + 16
      w.push (add32 (add32 (smallSigma1 (w.getD (t - 2) 0)) (w.getD (t - 7) 0))
        (add32 (smallSigma0 (w.getD (t - 15) 0)) (w.getD (t - 16) 0)))) w

/-- One SHA-256 compression round; `kw` is K[t] + W[t] mod 2^32 and the state is
the word list [a, b, c, d, e, f, g, h]. -/
def round (kw : Nat) (st : List Nat) : List Nat :=
  match st with
  | [a, b, c, d, e, f, g, h] =>
      let t1 := add32 h (add32 (bigSigma1 e) (add32 (ch e f g) kw))
      let t2 := add32 (bigSigma0 a) (maj a b c)
      [add32 t1 t2, a, b, c, add32 d t1, e, f, g]
  | st => st

/-- SHA-256 compression of one 64-byte block into the running hash value. -/
def compress (hv : List Nat) (block : List Nat) : List Nat :=
  let w := expand (toWords block).toArray
  let kws := List.zipWith add32 K w.toList
  let st := kws.foldl (fun st kw => round kw st) hv
  List.zipWith add32 hv st

/-- A 32-bit word as 4 big-endian bytes. -/
def wordBytes (w : Nat) : List Nat :=
  [(w >>> 24) &&& 255, (w >>> 16) &&& 255, (w >>> 8) &&& 255, w &&& 255]

/-- SHA-256 of a byte list, as the 32-byte digest. -/
def sha256 (msg : List Nat) : List Nat :=
  let blocks := chunk64 (pad msg)
  let hv := blocks.foldl compress H0
  (hv.map wordBytes).flatten

end crypto

namespace halight

/-- Timestamps are u32 seconds in the source (crate type `Timestamp`). -/
abbrev Timestamp := Nat

/-- An Ethereum address (`ethereum::Address`), opaque here. -/
abbrev EthereumAddress := Nat

/-- `EthereumIdentity` wraps an Ethereum address; `EthereumIdentity::from` is the
identity on the underlying address, so both sides of the conversion share a type. -/
abbrev EthereumIdentity := Nat

/-- `asset::Bitcoin`, an amount in satoshi. -/
abbrev Bitcoin := Nat

/-- A secret hash: 32 bytes (`rfc003::SecretHash`). -/
abbrev SecretHash := List Nat

/-- A secret: 32 bytes (`rfc003::Secret`). -/
abbrev Secret := List Nat

/-- Invoice states, mirroring the invoice states used by lnd
(src/cnd/src/swap_protocols/halight/connector.rs, `InvoiceState`). -/
inductive InvoiceState
  | Open
  | Settled
  | Cancelled
  | Accepted
deriving DecidableEq, Repr

/-- Payment status, mirroring the payment status used by lnd
(src/cnd/src/swap_protocols/halight/connector.rs, `PaymentStatus`). -/
inductive PaymentStatus
  | Unknown
  | InFlight
  | Succeeded
  | Failed
deriving DecidableEq, Repr

/-- The halight swap parameters, with exactly the fields the connector reads
(`params.lightning_cltv_expiry`, `params.ethereum_identity`,
`params.ethereum_absolute_expiry`, `params.lightning_amount`); the struct itself
is defined elsewhere in the repository. -/
structure Params where
  lightning_cltv_expiry : Timestamp
  ethereum_identity : EthereumIdentity
  ethereum_absolute_expiry : Timestamp
  lightning_amount : Bitcoin
deriving DecidableEq, Repr

/-- An lnd invoice as deserialized by the halight connector (`struct Invoice`).
`r_preimage` carries a 32-byte array when present; `deserialize_r_preimage`
guarantees the length on the deserialization path. -/
structure Invoice where
  value : Bitcoin
  expiry : Timestamp
  cltv_expiry : Timestamp
  state : InvoiceState
  fallback_addr : EthereumAddress
  r_preimage : Option (List Nat)
deriving DecidableEq, Repr

/-- An lnd payment as deserialized by the halight connector (`struct Payment`). -/
structure Payment where
  value_sat : Bitcoin
  payment_preimage : Option Secret
  status : PaymentStatus
  payment_hash : SecretHash
deriving DecidableEq, Repr

/-- The body of lnd's payments listing (`struct PaymentsResponse`). -/
structure PaymentsResponse where
  payments : Option (List Payment)
deriving DecidableEq, Repr

/-- `enum ValidationError`: params do not match the lnd invoice / payment. -/
inductive ValidationError
  | Invoice (params : Params) (invoice : halight.Invoice)
  | Payment (params : Params) (payment : halight.Payment)
deriving DecidableEq, Repr

/-- The error body lnd sends on failed requests (`struct LndError`). -/
structure LndError where
  error : String
  message : String
  code : Nat
deriving DecidableEq, Repr

/-- `impl ValidateParams for Invoice`: the invoice matches the params exactly when
cltv expiry, ethereum identity (of the fallback address), absolute expiry and
amount all agree; otherwise `ValidationError::Invoice`. -/
def Invoice.validate (self : Invoice) (params : Params) : Except ValidationError Unit :=
  if params.lightning_cltv_expiry = self.cltv_expiry
      ∧ params.ethereum_identity = self.fallback_addr
      ∧ params.ethereum_absolute_expiry = self.expiry
      ∧ params.lightning_amount = self.value
  then Except.ok ()
  else Except.error (ValidationError.Invoice params self)

/-- `impl ValidateParams for Payment`: the payment matches the params exactly when
the amount agrees; otherwise `ValidationError::Payment`. -/
def Payment.validate (self : Payment) (params : Params) : Except ValidationError Unit :=
  if params.lightning_amount = self.value_sat
  then Except.ok ()
  else Except.error (ValidationError.Payment params self)

/-- The errors a connector operation can produce (`anyhow::Error` in the source,
split by provenance). -/
inductive ConnectorError
  | validation (e : ValidationError)
  | lnd (e : LndError)
  | errorBodyNotDeserializable (status : Nat)
  | invoiceBodyNotDeserializable
  | missingPaymentPreimage (secret_hash : SecretHash)
  | missingInvoicePreimage
  | secretLengthInvalid (length : Nat)
deriving DecidableEq, Repr

/-- One HTTP exchange with lnd for the invoice route: the status code together
with the outcome of deserializing the body as an `Invoice` and as an `LndError`
(the code attempts at most one of the two, depending on the status). -/
structure HttpResponse where
  status : Nat
  invoiceBody : Except String Invoice
  errorBody : Except String LndError
deriving DecidableEq, Repr

/-- `reqwest::StatusCode::is_success`: the 2xx range. -/
def is_success (status : Nat) : Bool := 200 ≤ status && status < 300

/-- `Secret::from_vec`: succeeds exactly on 32-byte inputs. -/
def Secret.from_vec (v : List Nat) : Except ConnectorError Secret :=
  if v.length = 32 then Except.ok v else Except.error (ConnectorError.secretLengthInvalid v.length)

/-- `halight::Opened`. -/
inductive Opened | mk
deriving DecidableEq, Repr

/-- `halight::Accepted`. -/
inductive Accepted | mk
deriving DecidableEq, Repr

/-- `halight::Settled`, carrying the learned secret. -/
structure Settled where
  secret : Secret
deriving DecidableEq, Repr

/-- `halight::Cancelled`. -/
inductive Cancelled | mk
deriving DecidableEq, Repr

namespace LndConnectorAsSender

/-- `LndConnectorAsSender::find_payment`, after the payments listing has been
fetched and deserialized (transport and deserialization failures propagate out
of the enclosing operation before this logic runs): picks the first payment
matching the secret hash and wanted status, validates it against the params,
and reports a found payment, nothing yet, or a validation error. -/
def find_payment (response : PaymentsResponse) (secret_hash : SecretHash)
    (status : PaymentStatus) (params : Params) : Except ConnectorError (Option Payment) :=
  let payment := (response.payments.getD []).find?
    (fun payment => payment.payment_hash == secret_hash && payment.status == status)
  match payment with
  | none => Except.ok none
  | some payment =>
    match payment.validate params with
    | Except.error e => Except.error (ConnectorError.validation e)
    | Except.ok _ => Except.ok (some payment)

/-- `WaitForOpened for LndConnectorAsSender`: resolves immediately with `Opened`,
consulting nothing — the sender has no view of the receiver's invoice. -/
def wait_for_opened (_secret_hash : SecretHash) (_params : Params) :
    Except ConnectorError Opened :=
  Except.ok Opened.mk

/-- `WaitForAccepted for LndConnectorAsSender` over the successive payments
listings lnd returns: polls until a payment with the secret hash is in flight. -/
def wait_for_accepted : List PaymentsResponse → SecretHash → Params →
    Except ConnectorError (Option Accepted)
  | [], _, _ => Except.ok none
  | r :: rs, secret_hash, params =>
    match find_payment r secret_hash PaymentStatus.InFlight params with
    | Except.error e => Except.error e
    | Except.ok none => wait_for_accepted rs secret_hash params
    | Except.ok (some _) => Except.ok (some Accepted.mk)

/-- `WaitForSettled for LndConnectorAsSender` over the successive payments
listings lnd returns: polls until a payment with the secret hash has succeeded,
then returns its preimage as the secret, or an error when the preimage is
absent from lnd's response. -/
def wait_for_settled : List PaymentsResponse → SecretHash → Params →
    Except ConnectorError (Option Settled)
  | [], _, _ => Except.ok none
  | r :: rs, secret_hash, params =>
    match find_payment r secret_hash PaymentStatus.Succeeded params with
    | Except.error e => Except.error e
    | Except.ok none => wait_for_settled rs secret_hash params
    | Except.ok (some payment) =>
      match payment.payment_preimage with
      | some secret => Except.ok (some { secret })
      | none => Except.error (ConnectorError.missingPaymentPreimage secret_hash)

/-- `WaitForCancelled for LndConnectorAsSender` over the successive payments
listings lnd returns: polls until a payment with the secret hash has failed. -/
def wait_for_cancelled : List PaymentsResponse → SecretHash → Params →
    Except ConnectorError (Option Cancelled)
  | [], _, _ => Except.ok none
  | r :: rs, secret_hash, params =>
    match find_payment r secret_hash PaymentStatus.Failed params with
    | Except.error e => Except.error e
    | Except.ok none => wait_for_cancelled rs secret_hash params
    | Except.ok (some _) => Except.ok (some Cancelled.mk)

end LndConnectorAsSender

namespace LndConnectorAsReceiver

/-- `LndConnectorAsReceiver::find_invoice` on one HTTP exchange: 404 and 500 are
"not yet present" (`Ok(None)`); any other non-2xx status is an error, built
from the deserialized `LndError` body when that body deserializes and from a
context message otherwise; on 2xx the body is deserialized as an invoice,
validated against the params, and reported when it is in the expected state. -/
def find_invoice (response : HttpResponse) (_secret_hash : SecretHash) (params : Params)
    (expected_state : InvoiceState) : Except ConnectorError (Option Invoice) :=
  if response.status = 404 then Except.ok none
  else if response.status = 500 then Except.ok none
  else if ¬ is_success response.status then
    match response.errorBody with
    | Except.error _ => Except.error (ConnectorError.errorBodyNotDeserializable response.status)
    | Except.ok lnd_error => Except.error (ConnectorError.lnd lnd_error)
  else
    match response.invoiceBody with
    | Except.error _ => Except.error ConnectorError.invoiceBodyNotDeserializable
    | Except.ok invoice =>
      match invoice.validate params with
      | Except.error e => Except.error (ConnectorError.validation e)
      | Except.ok _ =>
        if invoice.state = expected_state then Except.ok (some invoice) else Except.ok none

/-- `WaitForOpened for LndConnectorAsReceiver` over the successive invoice
responses lnd returns: polls until the invoice exists in state `Open`. -/
def wait_for_opened : List HttpResponse → SecretHash → Params →
    Except ConnectorError (Option Opened)
  | [], _, _ => Except.ok none
  | r :: rs, secret_hash, params =>
    match find_invoice r secret_hash params InvoiceState.Open with
    | Except.error e => Except.error e
    | Except.ok none => wait_for_opened rs secret_hash params
    | Except.ok (some _) => Except.ok (some Opened.mk)

/-- `WaitForAccepted for LndConnectorAsReceiver` over the successive invoice
responses lnd returns: polls until the invoice is in state `Accepted`. -/
def wait_for_accepted : List HttpResponse → SecretHash → Params →
    Except ConnectorError (Option Accepted)
  | [], _, _ => Except.ok none
  | r :: rs, secret_hash, params =>
    match find_invoice r secret_hash params InvoiceState.Accepted with
    | Except.error e => Except.error e
    | Except.ok none => wait_for_accepted rs secret_hash params
    | Except.ok (some _) => Except.ok (some Accepted.mk)

/-- `WaitForSettled for LndConnectorAsReceiver` over the successive invoice
responses lnd returns: polls until the invoice is settled, then returns its
`r_preimage` (via `Secret::from_vec`) as the secret, or an error when the
settled invoice carries no preimage. -/
def wait_for_settled : List HttpResponse → SecretHash → Params →
    Except ConnectorError (Option Settled)
  | [], _, _ => Except.ok none
  | r :: rs, secret_hash, params =>
    match find_invoice r secret_hash params InvoiceState.Settled with
    | Except.error e => Except.error e
    | Except.ok none => wait_for_settled rs secret_hash params
    | Except.ok (some invoice) =>
      match invoice.r_preimage with
      | none => Except.error ConnectorError.missingInvoicePreimage
      | some preimage =>
        match Secret.from_vec preimage with
        | Except.error e => Except.error e
        | Except.ok secret => Except.ok (some { secret })

/-- `WaitForCancelled for LndConnectorAsReceiver` over the successive invoice
responses lnd returns: polls until the invoice is in state `Cancelled`. -/
def wait_for_cancelled : List HttpResponse → SecretHash → Params →
    Except ConnectorError (Option Cancelled)
  | [], _, _ => Except.ok none
  | r :: rs, secret_hash, params =>
    match find_invoice r secret_hash params InvoiceState.Cancelled with
    | Except.error e => Except.error e
    | Except.ok none => wait_for_cancelled rs secret_hash params
    | Except.ok (some _) => Except.ok (some Cancelled.mk)

end LndConnectorAsReceiver

/-- The JSON values the `r_preimage` deserializer distinguishes: JSON null
(serde calls `visit_unit`), a JSON string (serde calls `visit_str`), and every
other JSON shape, which the visitor rejects with a type error. -/
inductive JsonValue
  | null
  | str (s : String)
  | otherShape
deriving DecidableEq, Repr

/-- The deserialization errors `deserialize_r_preimage` can produce. -/
inductive DeserializeError
  | custom (message : String)
  | invalidLength (length : Nat)
  | invalidType
deriving DecidableEq, Repr

/-- `deserialize_r_preimage`, parameterised by the base64 decoder (the `base64`
crate is an external library): JSON null and the empty string mean no preimage;
a non-empty string is base64-decoded, a decoding failure becomes a custom
error, a decoded length other than 32 an invalid-length error, and a 32-byte
result is returned (the code copies `vec[..32]` into the array). -/
def deserialize_r_preimage (base64_decode : String → Except String (List Nat)) :
    JsonValue → Except DeserializeError (Option (List Nat))
  | JsonValue.null => Except.ok none
  | JsonValue.str v =>
    if v = "" then Except.ok none
    else
      match base64_decode v with
      | Except.error e => Except.error (DeserializeError.custom e)
      | Except.ok vec =>
        if vec.length ≠ 32 then Except.error (DeserializeError.invalidLength vec.length)
        else Except.ok (some (vec.take 32))
  | JsonValue.otherShape => Except.error DeserializeError.invalidType

end halight

namespace hlnbtc

/-- A secret hash: 32 bytes (`rfc003::SecretHash`). -/
abbrev SecretHash := List Nat

/-- A secret: 32 bytes (`rfc003::Secret`). -/
abbrev Secret := List Nat

/-- Invoice states, mirroring the invoice states used by lnd
(src/cnd/src/swap_protocols/hlnbtc/connector.rs, `InvoiceState`). -/
inductive InvoiceState
  | Open
  | Settled
  | Cancelled
  | Accepted
deriving DecidableEq, Repr

/-- An lnd invoice as deserialized by the hlnbtc connector (`struct Invoice`):
all numeric fields stay strings, and `r_preimage` stays an optional string. -/
structure Invoice where
  value : String
  value_msat : String
  amt_paid_sat : String
  amt_paid_msat : String
  expiry : String
  cltv_expiry : String
  state : InvoiceState
  r_preimage : Option String
deriving DecidableEq, Repr

/-- The error body lnd sends on failed requests (`struct LndError`). -/
structure LndError where
  error : String
  message : String
  code : Nat
deriving DecidableEq, Repr

/-- The hlnbtc swap parameters, with the field the connector reads
(`params.secret_hash`); the struct itself is defined elsewhere in the repository. -/
structure Params where
  secret_hash : SecretHash
deriving DecidableEq, Repr

/-- The errors a connector operation can produce (`anyhow::Error` in the source,
split by provenance). -/
inductive ConnectorError
  | lnd (e : LndError)
  | errorBodyNotDeserializable (status : Nat)
  | invoiceBodyNotDeserializable
deriving DecidableEq, Repr

/-- One HTTP exchange with lnd for the invoice route: the status code together
with the outcome of deserializing the body as an `Invoice` and as an `LndError`. -/
structure HttpResponse where
  status : Nat
  invoiceBody : Except String Invoice
  errorBody : Except String LndError
deriving DecidableEq, Repr

/-- `hlnbtc::Opened`. -/
inductive Opened | mk
deriving DecidableEq, Repr

namespace LndConnectorAsSender

/-- `WaitForOpened for LndConnectorAsSender`: resolves immediately with `Opened`,
consulting nothing — the sender has no view of the receiver's invoice. -/
def wait_for_opened (_params : Params) : Except ConnectorError Opened :=
  Except.ok Opened.mk

end LndConnectorAsSender

namespace LndConnectorAsReceiver

/-- `LndConnectorAsReceiver::find_invoice` on one HTTP exchange: like the
halight version but without any validation against params — 404 and 500 are
"not yet present" (`Ok(None)`), any other non-2xx status is an error from the
`LndError` body (or a context error when that body does not deserialize), and
on 2xx the invoice is reported when it is in the expected state. -/
def find_invoice (response : HttpResponse) (_secret_hash : SecretHash)
    (expected_state : InvoiceState) : Except ConnectorError (Option Invoice) :=
  if response.status = 404 then Except.ok none
  else if response.status = 500 then Except.ok none
  else if ¬ halight.is_success response.status then
    match response.errorBody with
    | Except.error _ => Except.error (ConnectorError.errorBodyNotDeserializable response.status)
    | Except.ok lnd_error => Except.error (ConnectorError.lnd lnd_error)
  else
    match response.invoiceBody with
    | Except.error _ => Except.error ConnectorError.invoiceBodyNotDeserializable
    | Except.ok invoice =>
      if invoice.state = expected_state then Except.ok (some invoice) else Except.ok none

/-- `WaitForOpened for LndConnectorAsReceiver` over the successive invoice
responses lnd returns: polls until the invoice exists in state `Open`. -/
def wait_for_opened : List HttpResponse → Params → Except ConnectorError (Option Opened)
  | [], _ => Except.ok none
  | r :: rs, params =>
    match find_invoice r params.secret_hash InvoiceState.Open with
    | Except.error e => Except.error e
    | Except.ok none => wait_for_opened rs params
    | Except.ok (some _) => Except.ok (some Opened.mk)

end LndConnectorAsReceiver

end hlnbtc

namespace announce

/-- A libp2p peer id, opaque here. -/
abbrev PeerId := Nat

/-- A swap id (`swap_protocols::SwapId`), opaque here. -/
abbrev SwapId := Nat

/-- A swap digest (`announce::SwapDigest`), opaque here. -/
abbrev SwapDigest := Nat

/-- The outbound substream configuration carrying the digest to announce, opaque here. -/
abbrev OutboundConfig := Nat

/-- A pending reply substream (`ReplySubstream<NegotiatedSubstream>`), opaque here. -/
abbrev ReplySubstream := Nat

/-- A handler error (`handler::Error`), opaque here. -/
abbrev HandlerError := Nat

/-- The confirmation a handler delivers; the behaviour reads its `swap_id` and
`swap_digest` fields (the handler type itself lives in handler.rs). -/
structure Confirmed where
  swap_id : SwapId
  swap_digest : SwapDigest
deriving DecidableEq, Repr

/-- `handler::HandlerEvent`, with the three cases `inject_node_event` matches on. -/
inductive HandlerEvent
  | ReceivedConfirmation (confirmed : Confirmed)
  | AwaitingConfirmation (sender : ReplySubstream)
  | Error (error : HandlerError)
deriving DecidableEq, Repr

/-- `BehaviourEvent`, the events the `Announce` behaviour emits. -/
inductive BehaviourEvent
  | ReceivedConfirmation (peer : PeerId) (swap_id : SwapId) (swap_digest : SwapDigest)
  | AwaitingConfirmation (peer : PeerId) (io : ReplySubstream)
  | Error (peer : PeerId) (error : HandlerError)
deriving DecidableEq, Repr

/-- `NetworkBehaviourAction<OutboundConfig, BehaviourEvent>`, restricted to the
two constructors the behaviour uses. -/
inductive NetworkBehaviourAction
  | SendEvent (peer_id : PeerId) (event : OutboundConfig)
  | GenerateEvent (event : BehaviourEvent)
deriving DecidableEq, Repr

/-- The `Announce` network behaviour: a queue (`VecDeque`) of pending events,
emitted when polled; the list front is the queue front. -/
structure Announce where
  events : List NetworkBehaviourAction
deriving DecidableEq, Repr

/-- `Announce::default`: an empty queue. -/
def Announce.default : Announce := { events := [] }

/-- `Announce::start_announce_protocol`: pushes a `SendEvent` to the back of the
queue. -/
def Announce.start_announce_protocol (self : Announce) (outbound_config : OutboundConfig)
    (peer_id : PeerId) : Announce :=
  { events := self.events ++ [NetworkBehaviourAction.SendEvent peer_id outbound_config] }

/-- `Announce::inject_node_event`: translates the handler event and pushes the
resulting `GenerateEvent` to the back of the queue. -/
def Announce.inject_node_event (self : Announce) (peer_id : PeerId) (event : HandlerEvent) :
    Announce :=
  match event with
  | HandlerEvent.ReceivedConfirmation confirmed =>
    { events := self.events ++ [NetworkBehaviourAction.GenerateEvent
        (BehaviourEvent.ReceivedConfirmation peer_id confirmed.swap_id confirmed.swap_digest)] }
  | HandlerEvent.AwaitingConfirmation sender =>
    { events := self.events ++ [NetworkBehaviourAction.GenerateEvent
        (BehaviourEvent.AwaitingConfirmation peer_id sender)] }
  | HandlerEvent.Error error =>
    { events := self.events ++ [NetworkBehaviourAction.GenerateEvent
        (BehaviourEvent.Error peer_id error)] }

/-- The outcome of one `poll` call (`std::task::Poll`). -/
inductive Poll (α : Type)
  | Ready (a : α)
  | Pending
deriving DecidableEq, Repr

/-- `Announce::poll`: pops the queue front and returns it as `Ready`, or
`Pending` when the queue is empty; also returns the updated behaviour state. -/
def Announce.poll (self : Announce) : Poll NetworkBehaviourAction × Announce :=
  match self.events with
  | [] => (Poll.Pending, self)
  | e :: rest => (Poll.Ready e, { events := rest })

/-- Repeatedly polls until `Pending`, collecting the returned events in order;
fuel-based so that the definition computes. -/
def Announce.drainGo : Nat → Announce → List NetworkBehaviourAction
  | 0, _ => []
  | fuel + 1, st =>
    match st.poll with
    | (Poll.Pending, _) => []
    | (Poll.Ready e, st2) => e :: Announce.drainGo fuel st2

/-- Repeatedly polls until `Pending`, collecting the returned events in order. -/
def Announce.drain (self : Announce) : List NetworkBehaviourAction :=
  Announce.drainGo self.events.length self

end announce

namespace comit_client

/-- A remote socket address, opaque here. -/
abbrev SocketAddr := Nat

/-- An `Arc<DefaultClient>` handle, opaque here; equal values are the same
shared client. -/
abbrev Client := Nat

/-- The `DefaultFactory` state: its `clients` map from socket address to the
cached client (`RwLock<HashMap<SocketAddr, Arc<DefaultClient>>>`). -/
structure DefaultFactory where
  clients : SocketAddr → Option Client

/-- `DefaultFactory::client_for`.  The nondeterministic outcome of
`TcpStream::connect` plus `Connection::start` is passed in as `fresh_client`:
when no client is cached for the address, the factory connects, caches
`fresh_client` under the address and returns it; when one is cached, it is
returned unchanged.  The returned flag records whether a new connection was
created. -/
def DefaultFactory.client_for (self : DefaultFactory) (comit_node_socket_addr : SocketAddr)
    (fresh_client : Client) : DefaultFactory × Client × Bool :=
  match self.clients comit_node_socket_addr with
  | some client => (self, client, false)
  | none =>
    ({ clients := fun a =>
        if a = comit_node_socket_addr then some fresh_client else self.clients a },
      fresh_client, true)

end comit_client

namespace http_api

/-- `LedgerKind` as the dispatch sees it.  Modelled from the spec: the enum is
defined outside the files under src/; the spec (section 3) lists the kinds
Bitcoin, Ethereum and LightningBitcoin, and the dispatch patterns
(`LedgerKind::Bitcoin(_)`) carry a ledger payload, kept opaque here. -/
inductive LedgerKind
  | Bitcoin (ledger : Nat)
  | Ethereum (ledger : Nat)
  | LightningBitcoin (ledger : Nat)
deriving DecidableEq, Repr

/-- `AssetKind` as the dispatch sees it.  Modelled from the spec: the enum is
defined outside the files under src/; the spec (section 3) lists
BitcoinQuantity(sats), EtherQuantity(wei) and Erc20(token_address, amount). -/
inductive AssetKind
  | Bitcoin (sats : Nat)
  | Ether (wei : Nat)
  | Erc20 (token_address : Nat) (amount : Nat)
deriving DecidableEq, Repr

/-- `RoleKind`. -/
inductive RoleKind
  | Alice
  | Bob
deriving DecidableEq, Repr

/-- The metadata the `with_swap_types` dispatch matches on. -/
structure Metadata where
  alpha_ledger : LedgerKind
  beta_ledger : LedgerKind
  alpha_asset : AssetKind
  beta_asset : AssetKind
  role : RoleKind
deriving DecidableEq, Repr

/-- The (alpha ledger, beta ledger, alpha asset, beta asset) type instantiation
a `with_swap_types` arm picks, together with the role `_match_role` picks. -/
inductive SwapTypes
  | BitcoinEthereumBitcoinEther (role : RoleKind)
  | BitcoinEthereumBitcoinErc20 (role : RoleKind)
  | EthereumBitcoinEtherBitcoin (role : RoleKind)
  | EthereumBitcoinErc20Bitcoin (role : RoleKind)
deriving DecidableEq, Repr

/-- The `with_swap_types!` dispatch: the four supported (ledger, asset)
combinations pick their type instantiation (`_match_role!` then covers both
roles); every other metadata hits the final arm, which panics
(`unimplemented!`), modelled as `none`. -/
def with_swap_types (metadata : Metadata) : Option SwapTypes :=
  match metadata with
  | { alpha_ledger := LedgerKind.Bitcoin _, beta_ledger := LedgerKind.Ethereum _,
      alpha_asset := AssetKind.Bitcoin _, beta_asset := AssetKind.Ether _, role } =>
    some (SwapTypes.BitcoinEthereumBitcoinEther role)
  | { alpha_ledger := LedgerKind.Bitcoin _, beta_ledger := LedgerKind.Ethereum _,
      alpha_asset := AssetKind.Bitcoin _, beta_asset := AssetKind.Erc20 _ _, role } =>
    some (SwapTypes.BitcoinEthereumBitcoinErc20 role)
  | { alpha_ledger := LedgerKind.Ethereum _, beta_ledger := LedgerKind.Bitcoin _,
      alpha_asset := AssetKind.Ether _, beta_asset := AssetKind.Bitcoin _, role } =>
    some (SwapTypes.EthereumBitcoinEtherBitcoin role)
  | { alpha_ledger := LedgerKind.Ethereum _, beta_ledger := LedgerKind.Bitcoin _,
      alpha_asset := AssetKind.Erc20 _ _, beta_asset := AssetKind.Bitcoin _, role } =>
    some (SwapTypes.EthereumBitcoinErc20Bitcoin role)
  | _ => none

/-- The four combinations the claim lists, written down independently of the
dispatch: Bitcoin/Ethereum with Bitcoin/Ether, Bitcoin/Ethereum with
Bitcoin/Erc20, Ethereum/Bitcoin with Ether/Bitcoin, Ethereum/Bitcoin with
Erc20/Bitcoin. -/
def claimed_supported_combination (metadata : Metadata) : Bool :=
  let alphaBitcoin := match metadata.alpha_ledger with
    | LedgerKind.Bitcoin _ => true
    | _ => false
  let alphaEthereum := match metadata.alpha_ledger with
    | LedgerKind.Ethereum _ => true
    | _ => false
  let betaBitcoin := match metadata.beta_ledger with
    | LedgerKind.Bitcoin _ => true
    | _ => false
  let betaEthereum := match metadata.beta_ledger with
    | LedgerKind.Ethereum _ => true
    | _ => false
  let alphaAssetBitcoin := match metadata.alpha_asset with
    | AssetKind.Bitcoin _ => true
    | _ => false
  let alphaAssetEther := match metadata.alpha_asset with
    | AssetKind.Ether _ => true
    | _ => false
  let alphaAssetErc20 := match metadata.alpha_asset with
    | AssetKind.Erc20 _ _ => true
    | _ => false
  let betaAssetBitcoin := match metadata.beta_asset with
    | AssetKind.Bitcoin _ => true
    | _ => false
  let betaAssetEther := match metadata.beta_asset with
    | AssetKind.Ether _ => true
    | _ => false
  let betaAssetErc20 := match metadata.beta_asset with
    | AssetKind.Erc20 _ _ => true
    | _ => false
  (alphaBitcoin && betaEthereum && alphaAssetBitcoin && betaAssetEther) ||
  (alphaBitcoin && betaEthereum && alphaAssetBitcoin && betaAssetErc20) ||
  (alphaEthereum && betaBitcoin && alphaAssetEther && betaAssetBitcoin) ||
  (alphaEthereum && betaBitcoin && alphaAssetErc20 && betaAssetBitcoin)

end http_api

/-!
Theorems settling the claims C1 to C10.
-/

/-- C5: for every secret hash and params, the Lightning sender connector's
wait_for_opened returns Ok(Opened) immediately and unconditionally, without
consulting LND — in both the halight and the hlnbtc connector the function
takes no LND data at all. -/
theorem C5_sender_wait_for_opened_immediate :
    (∀ (secret_hash : halight.SecretHash) (params : halight.Params),
      halight.LndConnectorAsSender.wait_for_opened secret_hash params =
        Except.ok halight.Opened.mk) ∧
    (∀ params : hlnbtc.Params,
      hlnbtc.LndConnectorAsSender.wait_for_opened params = Except.ok hlnbtc.Opened.mk) :=
  ⟨fun _ _ => rfl, fun _ => rfl⟩

/-- C8: inject_node_event surfaces a handler error as BehaviourEvent::Error with
exactly that peer id and error, and a ReceivedConfirmation handler event as
BehaviourEvent::ReceivedConfirmation with the peer and the confirmation's
swap_id and swap_digest; in both cases the event is queued at the back and, on
an otherwise empty behaviour, is exactly what the next poll returns. -/
theorem C8_inject_node_event_surfaces_handler_events :
    ∀ (st : announce.Announce) (peer_id : announce.PeerId),
      (∀ error, (st.inject_node_event peer_id (announce.HandlerEvent.Error error)).events =
        st.events ++ [announce.NetworkBehaviourAction.GenerateEvent
          (announce.BehaviourEvent.Error peer_id error)]) ∧
      (∀ confirmed,
        (st.inject_node_event peer_id
            (announce.HandlerEvent.ReceivedConfirmation confirmed)).events =
          st.events ++ [announce.NetworkBehaviourAction.GenerateEvent
            (announce.BehaviourEvent.ReceivedConfirmation peer_id
              confirmed.swap_id confirmed.swap_digest)]) ∧
      (∀ error,
        (announce.Announce.default.inject_node_event peer_id
            (announce.HandlerEvent.Error error)).poll =
          (announce.Poll.Ready (announce.NetworkBehaviourAction.GenerateEvent
            (announce.BehaviourEvent.Error peer_id error)), announce.Announce.default)) :=
  fun _ _ => ⟨fun _ => rfl, fun _ => rfl, fun _ => rfl⟩

/-- Draining a behaviour whose queue holds `l` yields exactly `l`. -/
theorem announce.Announce.drainGo_eq (l : List announce.NetworkBehaviourAction) :
    announce.Announce.drainGo l.length { events := l } = l := by
  induction l with
  | nil => rfl
  | cons e rest ih =>
    simpa [announce.Announce.drainGo, announce.Announce.poll] using ih

/-- C9: the Announce behaviour's event queue is strictly FIFO and lossless —
polling until Pending returns exactly the queued events in order (each exactly
once), poll returns at most one event per call, popping only the front, poll is
Pending exactly when the queue is empty (and then changes nothing), and
start_announce_protocol and inject_node_event each push exactly one event at
the back. -/
theorem C9_announce_queue_fifo_lossless :
    (∀ st : announce.Announce, st.drain = st.events) ∧
    (∀ st : announce.Announce,
      (st.poll.1 = announce.Poll.Pending ↔ st.events = []) ∧
      (st.events = [] → st.poll = (announce.Poll.Pending, st))) ∧
    (∀ (st : announce.Announce) e rest, st.events = e :: rest →
      st.poll = (announce.Poll.Ready e, { events := rest })) ∧
    (∀ (st : announce.Announce) outbound_config peer_id,
      (st.start_announce_protocol outbound_config peer_id).events =
        st.events ++ [announce.NetworkBehaviourAction.SendEvent peer_id outbound_config]) ∧
    (∀ (st : announce.Announce) peer_id event, ∃ a,
      (st.inject_node_event peer_id event).events = st.events ++ [a]) := by
  refine ⟨fun st => ?_, fun st => ⟨?_, ?_⟩, ?_, ?_, ?_⟩
  · cases st with
    | mk l => exact announce.Announce.drainGo_eq l
  · cases st with
    | mk l => cases l <;> simp [announce.Announce.poll]
  · intro h
    cases st with
    | mk l => cases l with
      | nil => rfl
      | cons e rest => cases h
  · intro st e rest h
    cases st with
    | mk l => cases h; rfl
  · intro st outbound_config peer_id
    rfl
  · intro st peer_id event
    cases event with
    | ReceivedConfirmation confirmed => exact ⟨_, rfl⟩
    | AwaitingConfirmation sender => exact ⟨_, rfl⟩
    | Error error => exact ⟨_, rfl⟩

/-- C9 witness: on the concrete behaviour whose queue holds one SendEvent, poll
returns that event and empties the queue. -/
theorem C9_announce_queue_fifo_lossless_witness :
    ({ events := [announce.NetworkBehaviourAction.SendEvent 1 2] } : announce.Announce).events =
      announce.NetworkBehaviourAction.SendEvent 1 2 :: [] ∧
    ({ events := [announce.NetworkBehaviourAction.SendEvent 1 2] } : announce.Announce).poll =
      (announce.Poll.Ready (announce.NetworkBehaviourAction.SendEvent 1 2), { events := [] }) :=
  ⟨rfl, C9_announce_queue_fifo_lossless.2.2.1
    { events := [announce.NetworkBehaviourAction.SendEvent 1 2] } _ _ rfl⟩

/-- C10: the with_swap_types dispatch returns a value exactly on the four
(alpha ledger, beta ledger, alpha asset, beta asset) combinations the claim
lists — Bitcoin/Ethereum with Bitcoin/Ether, Bitcoin/Ethereum with
Bitcoin/Erc20, Ethereum/Bitcoin with Ether/Bitcoin, Ethereum/Bitcoin with
Erc20/Bitcoin — and for every other metadata it hits the `unimplemented!` arm,
modelled by `none`. -/
theorem C10_with_swap_types_covers_exactly_four_combinations :
    ∀ metadata : http_api.Metadata,
      (http_api.with_swap_types metadata).isSome =
        http_api.claimed_supported_combination metadata ∧
      (http_api.with_swap_types metadata).isNone =
        !http_api.claimed_supported_combination metadata := by
  intro metadata
  obtain ⟨al, bl, aa, ba, role⟩ := metadata
  cases al <;> cases bl <;> cases aa <;> cases ba <;> cases role <;>
    simp [http_api.with_swap_types, http_api.claimed_supported_combination]

/-- C7: the client factory keeps at most one client per remote socket address
(its state is a map from address to client), creates entries lazily on first
request, returns the stored client on a repeated request for the same address
without creating a new connection, and leaves the entries of distinct
addresses untouched. -/
theorem C7_client_factory_one_client_per_address :
    ∀ (factory : comit_client.DefaultFactory) (addr : comit_client.SocketAddr)
      (fresh fresh2 : comit_client.Client),
      (∀ client, factory.clients addr = some client →
        factory.client_for addr fresh = (factory, client, false)) ∧
      (factory.clients addr = none →
        factory.client_for addr fresh =
          ({ clients := fun a => if a = addr then some fresh else factory.clients a },
            fresh, true)) ∧
      ((factory.client_for addr fresh).1.clients addr =
        some (factory.client_for addr fresh).2.1) ∧
      ((factory.client_for addr fresh).1.client_for addr fresh2 =
        ((factory.client_for addr fresh).1, (factory.client_for addr fresh).2.1, false)) ∧
      (∀ addr2, addr2 ≠ addr →
        (factory.client_for addr fresh).1.clients addr2 = factory.clients addr2) := by
  intro factory addr fresh fresh2
  refine ⟨fun client h => ?_, fun h => ?_, ?_, ?_, fun addr2 h2 => ?_⟩
  · simp [comit_client.DefaultFactory.client_for, h]
  · simp [comit_client.DefaultFactory.client_for, h]
  · cases h : factory.clients addr with
    | some client => simp [comit_client.DefaultFactory.client_for, h]
    | none => simp [comit_client.DefaultFactory.client_for, h]
  · cases h : factory.clients addr with
    | some client => simp [comit_client.DefaultFactory.client_for, h]
    | none => simp [comit_client.DefaultFactory.client_for, h]
  · cases h : factory.clients addr with
    | some client => simp [comit_client.DefaultFactory.client_for, h]
    | none => simp [comit_client.DefaultFactory.client_for, h, h2]

/-- C7 witness: with an initially empty factory, the first request for address 0
connects and caches client 5, the second request for address 0 returns that
cached client with no new connection, and address 1 stays without an entry. -/
theorem C7_client_factory_one_client_per_address_witness :
    (({ clients := fun _ => none } : comit_client.DefaultFactory).clients 0 = none ∧
      (1 : comit_client.SocketAddr) ≠ 0) ∧
    (({ clients := fun _ => none } : comit_client.DefaultFactory).client_for 0 5).1.client_for 0 6 =
      ((({ clients := fun _ => none } : comit_client.DefaultFactory).client_for 0 5).1,
        (({ clients := fun _ => none } : comit_client.DefaultFactory).client_for 0 5).2.1,
        false) ∧
    ((({ clients := fun _ => none } : comit_client.DefaultFactory).client_for 0 5).1.clients 1 =
      ({ clients := fun _ => none } : comit_client.DefaultFactory).clients 1) :=
  ⟨⟨rfl, by decide⟩,
    (C7_client_factory_one_client_per_address { clients := fun _ => none } 0 5 6).2.2.2.1,
    (C7_client_factory_one_client_per_address { clients := fun _ => none } 0 5 6).2.2.2.2 1
      (by decide)⟩

/-- C6: the r_preimage deserializer maps JSON null and the empty string to
"absent" (None); a non-empty string is base64-decoded and yields Some of the
32-byte array exactly when the decoded length is 32, while any other decoded
length and any base64 decoding failure is a deserialization error.  The base64
decoder itself is an external library, so the property holds for every decoder. -/
theorem C6_deserialize_r_preimage_base64 :
    ∀ base64_decode : String → Except String (List Nat),
      halight.deserialize_r_preimage base64_decode halight.JsonValue.null = Except.ok none ∧
      halight.deserialize_r_preimage base64_decode (halight.JsonValue.str "") = Except.ok none ∧
      (∀ v, v ≠ "" →
        (∀ e, base64_decode v = Except.error e →
          halight.deserialize_r_preimage base64_decode (halight.JsonValue.str v) =
            Except.error (halight.DeserializeError.custom e)) ∧
        (∀ vec, base64_decode v = Except.ok vec →
          (vec.length = 32 →
            halight.deserialize_r_preimage base64_decode (halight.JsonValue.str v) =
              Except.ok (some (vec.take 32))) ∧
          (vec.length ≠ 32 →
            halight.deserialize_r_preimage base64_decode (halight.JsonValue.str v) =
              Except.error (halight.DeserializeError.invalidLength vec.length)))) ∧
      (∀ v arr,
        halight.deserialize_r_preimage base64_decode (halight.JsonValue.str v) =
          Except.ok (some arr) →
        ∃ vec, base64_decode v = Except.ok vec ∧ vec.length = 32 ∧ arr = vec.take 32) := by
  intro base64_decode
  refine ⟨rfl, rfl, fun v hv => ⟨fun e he => ?_, fun vec hvec => ⟨fun h32 => ?_, fun h32 => ?_⟩⟩,
    fun v arr harr => ?_⟩
  · simp [halight.deserialize_r_preimage, hv, he]
  · simp [halight.deserialize_r_preimage, hv, hvec, h32]
  · simp [halight.deserialize_r_preimage, hv, hvec, h32]
  · by_cases hv : v = ""
    · simp [halight.deserialize_r_preimage, hv] at harr
    · cases hdec : base64_decode v with
      | error e => simp [halight.deserialize_r_preimage, hv, hdec] at harr
      | ok vec =>
        by_cases h32 : vec.length = 32
        · refine ⟨vec, rfl, h32, ?_⟩
          simp [halight.deserialize_r_preimage, hv, hdec, h32] at harr
          exact harr.symm
        · simp [halight.deserialize_r_preimage, hv, hdec, h32] at harr

/-- C6 witness: with a concrete decoder, the string decoding to 32 bytes of 7
yields those bytes, and a string the decoder rejects yields a custom error. -/
theorem C6_deserialize_r_preimage_base64_witness :
    ("good" ≠ "" ∧
      (fun s => if s = "good" then Except.ok (List.replicate 32 7)
        else Except.error "invalid base64") "good" = Except.ok (List.replicate 32 7) ∧
      (List.replicate 32 7).length = 32) ∧
    halight.deserialize_r_preimage
      (fun s => if s = "good" then Except.ok (List.replicate 32 7)
        else Except.error "invalid base64") (halight.JsonValue.str "good") =
      Except.ok (some ((List.replicate 32 7).take 32)) ∧
    halight.deserialize_r_preimage
      (fun s => if s = "good" then Except.ok (List.replicate 32 7)
        else Except.error "invalid base64") (halight.JsonValue.str "bad") =
      Except.error (halight.DeserializeError.custom "invalid base64") :=
  ⟨⟨by simp, by simp, by simp⟩,
    (((C6_deserialize_r_preimage_base64 _).2.2.1 "good" (by simp)).2 _
      (by simp)).1 (by simp),
    ((C6_deserialize_r_preimage_base64 _).2.2.1 "bad" (by simp)).1 "invalid base64"
      (by simp)⟩

/-- C4: when LND answers the invoice lookup with HTTP status 404 or 500,
find_invoice returns Ok(None) — treated as "not yet present", so the
surrounding wait loop just keeps polling and no state changes — and for any
other non-success status it returns an error built from the deserialized LND
error body (with a context error when even that body fails to deserialize).
Both the halight and the hlnbtc receiver behave this way. -/
theorem C4_find_invoice_404_500_not_present :
    (∀ (r : halight.HttpResponse) (h : halight.SecretHash) (p : halight.Params)
        (st : halight.InvoiceState),
      ((r.status = 404 ∨ r.status = 500) →
        halight.LndConnectorAsReceiver.find_invoice r h p st = Except.ok none) ∧
      (halight.is_success r.status = false → r.status ≠ 404 → r.status ≠ 500 →
        (∀ e, r.errorBody = Except.ok e →
          halight.LndConnectorAsReceiver.find_invoice r h p st =
            Except.error (halight.ConnectorError.lnd e)) ∧
        (∀ msg, r.errorBody = Except.error msg →
          halight.LndConnectorAsReceiver.find_invoice r h p st =
            Except.error (halight.ConnectorError.errorBodyNotDeserializable r.status))) ∧
      (halight.LndConnectorAsReceiver.find_invoice r h p halight.InvoiceState.Open =
          Except.ok none →
        ∀ rs, halight.LndConnectorAsReceiver.wait_for_opened (r :: rs) h p =
          halight.LndConnectorAsReceiver.wait_for_opened rs h p)) ∧
    (∀ (r : hlnbtc.HttpResponse) (h : hlnbtc.SecretHash) (st : hlnbtc.InvoiceState),
      ((r.status = 404 ∨ r.status = 500) →
        hlnbtc.LndConnectorAsReceiver.find_invoice r h st = Except.ok none) ∧
      (halight.is_success r.status = false → r.status ≠ 404 → r.status ≠ 500 →
        (∀ e, r.errorBody = Except.ok e →
          hlnbtc.LndConnectorAsReceiver.find_invoice r h st =
            Except.error (hlnbtc.ConnectorError.lnd e)) ∧
        (∀ msg, r.errorBody = Except.error msg →
          hlnbtc.LndConnectorAsReceiver.find_invoice r h st =
            Except.error (hlnbtc.ConnectorError.errorBodyNotDeserializable r.status)))) := by
  constructor
  · intro r h p st
    refine ⟨fun hst => ?_, fun hsucc h404 h500 => ⟨fun e he => ?_, fun msg hmsg => ?_⟩,
      fun hnone rs => ?_⟩
    · cases hst with
      | inl h4 => simp [halight.LndConnectorAsReceiver.find_invoice, h4]
      | inr h5 => simp [halight.LndConnectorAsReceiver.find_invoice, h5]
    · simp [halight.LndConnectorAsReceiver.find_invoice, h404, h500, hsucc, he]
    · simp [halight.LndConnectorAsReceiver.find_invoice, h404, h500, hsucc, hmsg]
    · simp [halight.LndConnectorAsReceiver.wait_for_opened, hnone]
  · intro r h st
    refine ⟨fun hst => ?_, fun hsucc h404 h500 => ⟨fun e he => ?_, fun msg hmsg => ?_⟩⟩
    · cases hst with
      | inl h4 => simp [hlnbtc.LndConnectorAsReceiver.find_invoice, h4]
      | inr h5 => simp [hlnbtc.LndConnectorAsReceiver.find_invoice, h5]
    · simp [hlnbtc.LndConnectorAsReceiver.find_invoice, h404, h500, hsucc, he]
    · simp [hlnbtc.LndConnectorAsReceiver.find_invoice, h404, h500, hsucc, hmsg]

/-- C4 witness: concrete responses — a 404 and a 500 yield Ok(None), and a 503
whose body deserializes as an LndError yields exactly that error. -/
theorem C4_find_invoice_404_500_not_present_witness :
    halight.LndConnectorAsReceiver.find_invoice
      { status := 404, invoiceBody := Except.error "", errorBody := Except.error "" }
      [] { lightning_cltv_expiry := 0, ethereum_identity := 0,
           ethereum_absolute_expiry := 0, lightning_amount := 0 }
      halight.InvoiceState.Open = Except.ok none ∧
    hlnbtc.LndConnectorAsReceiver.find_invoice
      { status := 500, invoiceBody := Except.error "", errorBody := Except.error "" }
      [] hlnbtc.InvoiceState.Open = Except.ok none ∧
    halight.LndConnectorAsReceiver.find_invoice
      { status := 503, invoiceBody := Except.error "",
        errorBody := Except.ok { error := "e", message := "m", code := 2 } }
      [] { lightning_cltv_expiry := 0, ethereum_identity := 0,
           ethereum_absolute_expiry := 0, lightning_amount := 0 }
      halight.InvoiceState.Open =
      Except.error (halight.ConnectorError.lnd { error := "e", message := "m", code := 2 }) :=
  ⟨(C4_find_invoice_404_500_not_present.1 _ [] _ _).1 (Or.inl rfl),
    (C4_find_invoice_404_500_not_present.2 _ [] _).1 (Or.inr rfl),
    ((C4_find_invoice_404_500_not_present.1 _ [] _ _).2.1 (by decide) (by decide)
      (by decide)).1 _ rfl⟩

/-- C2: an observed invoice or payment that does not match the params yields a
terminal ValidationError rather than being silently used: the invoice
comparison checks the cltv expiry, the ethereum identity, the (absolute)
expiry and the amount, the payment comparison checks the amount, and both
find_payment (for the payment it finds by hash and status) and find_invoice
(for the invoice it deserialized) propagate the validation error. -/
theorem C2_validation_mismatch_is_terminal_error :
    (∀ (params : halight.Params) (invoice : halight.Invoice),
      (invoice.validate params = Except.ok () ↔
        params.lightning_cltv_expiry = invoice.cltv_expiry ∧
        params.ethereum_identity = invoice.fallback_addr ∧
        params.ethereum_absolute_expiry = invoice.expiry ∧
        params.lightning_amount = invoice.value) ∧
      (¬ (params.lightning_cltv_expiry = invoice.cltv_expiry ∧
          params.ethereum_identity = invoice.fallback_addr ∧
          params.ethereum_absolute_expiry = invoice.expiry ∧
          params.lightning_amount = invoice.value) →
        invoice.validate params =
          Except.error (halight.ValidationError.Invoice params invoice))) ∧
    (∀ (params : halight.Params) (payment : halight.Payment),
      (payment.validate params = Except.ok () ↔
        params.lightning_amount = payment.value_sat) ∧
      (params.lightning_amount ≠ payment.value_sat →
        payment.validate params =
          Except.error (halight.ValidationError.Payment params payment))) ∧
    (∀ (r : halight.PaymentsResponse) (h : halight.SecretHash) (st : halight.PaymentStatus)
        (p : halight.Params) (payment : halight.Payment) e,
      (r.payments.getD []).find?
          (fun payment => payment.payment_hash == h && payment.status == st) = some payment →
      payment.validate p = Except.error e →
      halight.LndConnectorAsSender.find_payment r h st p =
        Except.error (halight.ConnectorError.validation e)) ∧
    (∀ (r : halight.HttpResponse) (h : halight.SecretHash) (p : halight.Params)
        (st : halight.InvoiceState) (invoice : halight.Invoice) e,
      halight.is_success r.status = true → r.invoiceBody = Except.ok invoice →
      invoice.validate p = Except.error e →
      halight.LndConnectorAsReceiver.find_invoice r h p st =
        Except.error (halight.ConnectorError.validation e)) := by
  refine ⟨fun params invoice => ⟨?_, fun hne => ?_⟩, fun params payment => ⟨?_, fun hne => ?_⟩,
    fun r h st p payment e hfind hval => ?_, fun r h p st invoice e hs hbody hval => ?_⟩
  · unfold halight.Invoice.validate
    split <;> simp_all
  · simp [halight.Invoice.validate, hne]
  · unfold halight.Payment.validate
    split <;> simp_all
  · simp [halight.Payment.validate, hne]
  · simp [halight.LndConnectorAsSender.find_payment, hfind, hval]
  · have hs' : 200 ≤ r.status ∧ r.status < 300 := by
      simpa [halight.is_success, Bool.and_eq_true, decide_eq_true_iff] using hs
    have h404 : r.status ≠ 404 := by omega
    have h500 : r.status ≠ 500 := by omega
    simp [halight.LndConnectorAsReceiver.find_invoice, h404, h500, hs, hbody, hval]

/-- C2 witness: a concrete invoice whose amount disagrees with the params is
rejected by find_invoice with the validation error, and a concrete payment
whose amount disagrees is rejected by validate. -/
theorem C2_validation_mismatch_is_terminal_error_witness :
    halight.Invoice.validate
      { value := 999, expiry := 3600, cltv_expiry := 350, state := halight.InvoiceState.Open,
        fallback_addr := 7, r_preimage := none }
      { lightning_cltv_expiry := 350, ethereum_identity := 7,
        ethereum_absolute_expiry := 3600, lightning_amount := 100 } =
      Except.error (halight.ValidationError.Invoice
        { lightning_cltv_expiry := 350, ethereum_identity := 7,
          ethereum_absolute_expiry := 3600, lightning_amount := 100 }
        { value := 999, expiry := 3600, cltv_expiry := 350, state := halight.InvoiceState.Open,
          fallback_addr := 7, r_preimage := none }) ∧
    halight.LndConnectorAsReceiver.find_invoice
      { status := 200,
        invoiceBody := Except.ok
          { value := 999, expiry := 3600, cltv_expiry := 350,
            state := halight.InvoiceState.Open, fallback_addr := 7, r_preimage := none },
        errorBody := Except.error "" }
      [] { lightning_cltv_expiry := 350, ethereum_identity := 7,
           ethereum_absolute_expiry := 3600, lightning_amount := 100 }
      halight.InvoiceState.Open =
      Except.error (halight.ConnectorError.validation (halight.ValidationError.Invoice
        { lightning_cltv_expiry := 350, ethereum_identity := 7,
          ethereum_absolute_expiry := 3600, lightning_amount := 100 }
        { value := 999, expiry := 3600, cltv_expiry := 350, state := halight.InvoiceState.Open,
          fallback_addr := 7, r_preimage := none })) :=
  ⟨(C2_validation_mismatch_is_terminal_error.1
      { lightning_cltv_expiry := 350, ethereum_identity := 7,
        ethereum_absolute_expiry := 3600, lightning_amount := 100 }
      { value := 999, expiry := 3600, cltv_expiry := 350, state := halight.InvoiceState.Open,
        fallback_addr := 7, r_preimage := none }).2 (by decide),
    C2_validation_mismatch_is_terminal_error.2.2.2
      { status := 200,
        invoiceBody := Except.ok
          { value := 999, expiry := 3600, cltv_expiry := 350,
            state := halight.InvoiceState.Open, fallback_addr := 7, r_preimage := none },
        errorBody := Except.error "" }
      [] _ halight.InvoiceState.Open _ _ (by decide) rfl (by decide)⟩

/-- C3 counterexample: it is not the case that every 5xx status makes
find_invoice return Ok(None) — at status 503 (whose body deserializes as an
LndError) find_invoice propagates an error instead of retrying silently. -/
theorem C3_not_every_5xx_retried_counterexample :
    ¬ (∀ (r : halight.HttpResponse) (h : halight.SecretHash) (p : halight.Params)
        (st : halight.InvoiceState), 500 ≤ r.status → r.status ≤ 599 →
        halight.LndConnectorAsReceiver.find_invoice r h p st = Except.ok none) := by
  intro hclaim
  have h := hclaim
    { status := 503, invoiceBody := Except.error "",
      errorBody := Except.ok { error := "e", message := "m", code := 2 } }
    [] { lightning_cltv_expiry := 0, ethereum_identity := 0,
         ethereum_absolute_expiry := 0, lightning_amount := 0 }
    halight.InvoiceState.Open (by decide) (by decide)
  exact absurd h (by decide)

/-- C1 counterexample: the claim that every secret returned by wait_for_settled
satisfies SHA256(secret) == hash fails on the code — the sender's
wait_for_settled returns whatever preimage LND reports for the succeeded
payment, without hashing it: for the payment whose payment_hash and reported
preimage are both 32 zero bytes, wait_for_settled returns Settled with the
zero secret even though SHA-256 of 32 zero bytes is not that hash, and no
error is raised for this invalid preimage. -/
theorem C1_settled_secret_not_hash_verified_counterexample :
    halight.LndConnectorAsSender.wait_for_settled
        [{ payments := some
            [{ value_sat := 100,
               payment_preimage := some (List.replicate 32 0),
               status := halight.PaymentStatus.Succeeded,
               payment_hash := List.replicate 32 0 }] }]
        (List.replicate 32 0)
        { lightning_cltv_expiry := 350, ethereum_identity := 7,
          ethereum_absolute_expiry := 3600, lightning_amount := 100 } =
      Except.ok (some { secret := List.replicate 32 0 }) ∧
    crypto.sha256 (List.replicate 32 0) ≠ List.replicate 32 0 :=
  ⟨by decide, by decide⟩

/-- A payment that find_payment reports as found matches the secret hash and
the wanted status, and passed validation. -/
theorem halight.find_payment_ok_some_facts
    {r : halight.PaymentsResponse} {h : halight.SecretHash} {st : halight.PaymentStatus}
    {p : halight.Params} {payment : halight.Payment}
    (heq : halight.LndConnectorAsSender.find_payment r h st p = Except.ok (some payment)) :
    payment.payment_hash = h ∧ payment.status = st ∧ payment.validate p = Except.ok () := by
  simp only [halight.LndConnectorAsSender.find_payment] at heq
  split at heq
  · cases heq
  · rename_i q hfind
    split at heq
    · cases heq
    · rename_i u hval
      cases heq
      have hpred := List.find?_some hfind
      simp only [Bool.and_eq_true, beq_iff_eq] at hpred
      cases u
      exact ⟨hpred.1, hpred.2, hval⟩

/-- Secret::from_vec succeeds only by returning its 32-byte input unchanged. -/
theorem halight.Secret.from_vec_ok {v : List Nat} {s : halight.Secret}
    (h : halight.Secret.from_vec v = Except.ok s) : s = v ∧ v.length = 32 := by
  unfold halight.Secret.from_vec at h
  split at h
  · exact ⟨(Except.ok.inj h).symm, by assumption⟩
  · cases h

/-- C1 (amended): when wait_for_settled returns Settled{secret}, the secret is
exactly the preimage reported by LND — the succeeded matching payment's
payment_preimage for the sender, the settled invoice's r_preimage for the
receiver — and when the succeeded payment / settled invoice carries no
preimage, wait_for_settled returns an error; no SHA-256 verification of the
preimage against the secret hash is performed (that the preimage matches the
hash is delegated to LND). -/
theorem C1_settled_secret_is_lnd_reported_preimage :
    (∀ (rs : List halight.PaymentsResponse) (h : halight.SecretHash) (p : halight.Params)
        (s : halight.Settled),
      halight.LndConnectorAsSender.wait_for_settled rs h p = Except.ok (some s) →
      ∃ r ∈ rs, ∃ payment : halight.Payment,
        halight.LndConnectorAsSender.find_payment r h halight.PaymentStatus.Succeeded p =
          Except.ok (some payment) ∧
        payment.payment_hash = h ∧ payment.status = halight.PaymentStatus.Succeeded ∧
        payment.payment_preimage = some s.secret) ∧
    (∀ (r : halight.PaymentsResponse) (rs : List halight.PaymentsResponse)
        (h : halight.SecretHash) (p : halight.Params) (payment : halight.Payment),
      halight.LndConnectorAsSender.find_payment r h halight.PaymentStatus.Succeeded p =
        Except.ok (some payment) →
      payment.payment_preimage = none →
      halight.LndConnectorAsSender.wait_for_settled (r :: rs) h p =
        Except.error (halight.ConnectorError.missingPaymentPreimage h)) ∧
    (∀ (rs : List halight.HttpResponse) (h : halight.SecretHash) (p : halight.Params)
        (s : halight.Settled),
      halight.LndConnectorAsReceiver.wait_for_settled rs h p = Except.ok (some s) →
      ∃ r ∈ rs, ∃ invoice : halight.Invoice,
        halight.LndConnectorAsReceiver.find_invoice r h p halight.InvoiceState.Settled =
          Except.ok (some invoice) ∧
        invoice.r_preimage = some s.secret) ∧
    (∀ (r : halight.HttpResponse) (rs : List halight.HttpResponse)
        (h : halight.SecretHash) (p : halight.Params) (invoice : halight.Invoice),
      halight.LndConnectorAsReceiver.find_invoice r h p halight.InvoiceState.Settled =
        Except.ok (some invoice) →
      invoice.r_preimage = none →
      halight.LndConnectorAsReceiver.wait_for_settled (r :: rs) h p =
        Except.error halight.ConnectorError.missingInvoicePreimage) := by
  refine ⟨?_, ?_, ?_, ?_⟩
  · intro rs
    induction rs with
    | nil =>
      intro h p s hw
      simp [halight.LndConnectorAsSender.wait_for_settled] at hw
    | cons r rs ih =>
      intro h p s hw
      simp only [halight.LndConnectorAsSender.wait_for_settled] at hw
      split at hw
      · cases hw
      · obtain ⟨r2, hr2, rest⟩ := ih h p s hw
        exact ⟨r2, List.mem_cons_of_mem _ hr2, rest⟩
      · rename_i payment hfp
        split at hw
        · rename_i secret hpre
          cases hw
          obtain ⟨h1, h2, _⟩ := halight.find_payment_ok_some_facts hfp
          exact ⟨r, List.mem_cons_self _ _, payment, hfp, h1, h2, hpre⟩
        · cases hw
  · intro r rs h p payment hfp hpre
    simp only [halight.LndConnectorAsSender.wait_for_settled, hfp, hpre]
  · intro rs
    induction rs with
    | nil =>
      intro h p s hw
      simp [halight.LndConnectorAsReceiver.wait_for_settled] at hw
    | cons r rs ih =>
      intro h p s hw
      simp only [halight.LndConnectorAsReceiver.wait_for_settled] at hw
      split at hw
      · cases hw
      · obtain ⟨r2, hr2, rest⟩ := ih h p s hw
        exact ⟨r2, List.mem_cons_of_mem _ hr2, rest⟩
      · rename_i invoice hfi
        split at hw
        · cases hw
        · rename_i preimage hpre
          split at hw
          · cases hw
          · rename_i secret hfv
            cases hw
            obtain ⟨hsec, _⟩ := halight.Secret.from_vec_ok hfv
            exact ⟨r, List.mem_cons_self _ _, invoice, hfi, by rw [hpre, hsec]⟩
  · intro r rs h p invoice hfi hpre
    simp only [halight.LndConnectorAsReceiver.wait_for_settled, hfi, hpre]

/-- C1 (amended) witness: for a concrete succeeded payment reported by LND
without a preimage, find_payment finds it and wait_for_settled returns the
missing-preimage error. -/
theorem C1_settled_secret_is_lnd_reported_preimage_witness :
    halight.LndConnectorAsSender.find_payment
        { payments := some
            [{ value_sat := 100,
               payment_preimage := none,
               status := halight.PaymentStatus.Succeeded,
               payment_hash := List.replicate 32 1 }] }
        (List.replicate 32 1) halight.PaymentStatus.Succeeded
        { lightning_cltv_expiry := 350, ethereum_identity := 7,
          ethereum_absolute_expiry := 3600, lightning_amount := 100 } =
      Except.ok (some
        ({ value_sat := 100,
           payment_preimage := none,
           status := halight.PaymentStatus.Succeeded,
           payment_hash := List.replicate 32 1 } : halight.Payment)) ∧
    halight.LndConnectorAsSender.wait_for_settled
        [{ payments := some
            [{ value_sat := 100,
               payment_preimage := none,
               status := halight.PaymentStatus.Succeeded,
               payment_hash := List.replicate 32 1 }] }]
        (List.replicate 32 1)
        { lightning_cltv_expiry := 350, ethereum_identity := 7,
          ethereum_absolute_expiry := 3600, lightning_amount := 100 } =
      Except.error (halight.ConnectorError.missingPaymentPreimage (List.replicate 32 1)) := by
  constructor
  · decide
  · exact C1_settled_secret_is_lnd_reported_preimage.2.1 _ [] (List.replicate 32 1) _
      { value_sat := 100, payment_preimage := none,
        status := halight.PaymentStatus.Succeeded, payment_hash := List.replicate 32 1 }
      (by decide) rfl

/-- C3 (amended): a 5xx answer while polling an invoice is retried silently
only for status 500 exactly (besides 404, "not yet present"): find_invoice
returns Ok(None) for status 500, but every status in 501..=599 is propagated
as an error rather than retried — in both the halight and hlnbtc receiver. -/
theorem C3_only_500_is_retried_silently :
    (∀ (r : halight.HttpResponse) (h : halight.SecretHash) (p : halight.Params)
        (st : halight.InvoiceState),
      (r.status = 500 →
        halight.LndConnectorAsReceiver.find_invoice r h p st = Except.ok none) ∧
      (500 < r.status → r.status ≤ 599 →
        ∃ e, halight.LndConnectorAsReceiver.find_invoice r h p st = Except.error e)) ∧
    (∀ (r : hlnbtc.HttpResponse) (h : hlnbtc.SecretHash) (st : hlnbtc.InvoiceState),
      (r.status = 500 →
        hlnbtc.LndConnectorAsReceiver.find_invoice r h st = Except.ok none) ∧
      (500 < r.status → r.status ≤ 599 →
        ∃ e, hlnbtc.LndConnectorAsReceiver.find_invoice r h st = Except.error e)) := by
  constructor
  · intro r h p st
    refine ⟨fun h500 => ?_, fun hlo hhi => ?_⟩
    · simp [halight.LndConnectorAsReceiver.find_invoice, h500]
    · have h404 : r.status ≠ 404 := by omega
      have h500 : r.status ≠ 500 := by omega
      have hsucc : halight.is_success r.status = false := by
        simp only [halight.is_success, Bool.and_eq_false_iff, decide_eq_false_iff_not]
        omega
      cases he : r.errorBody with
      | error msg =>
        exact ⟨halight.ConnectorError.errorBodyNotDeserializable r.status,
          by simp [halight.LndConnectorAsReceiver.find_invoice, h404, h500, hsucc, he]⟩
      | ok e =>
        exact ⟨halight.ConnectorError.lnd e,
          by simp [halight.LndConnectorAsReceiver.find_invoice, h404, h500, hsucc, he]⟩
  · intro r h st
    refine ⟨fun h500 => ?_, fun hlo hhi => ?_⟩
    · simp [hlnbtc.LndConnectorAsReceiver.find_invoice, h500]
    · have h404 : r.status ≠ 404 := by omega
      have h500 : r.status ≠ 500 := by omega
      have hsucc : halight.is_success r.status = false := by
        simp only [halight.is_success, Bool.and_eq_false_iff, decide_eq_false_iff_not]
        omega
      cases he : r.errorBody with
      | error msg =>
        exact ⟨hlnbtc.ConnectorError.errorBodyNotDeserializable r.status,
          by simp [hlnbtc.LndConnectorAsReceiver.find_invoice, h404, h500, hsucc, he]⟩
      | ok e =>
        exact ⟨hlnbtc.ConnectorError.lnd e,
          by simp [hlnbtc.LndConnectorAsReceiver.find_invoice, h404, h500, hsucc, he]⟩

/-- C3 (amended) witness: concretely, status 500 yields Ok(None) and status 503
yields an error. -/
theorem C3_only_500_is_retried_silently_witness :
    halight.LndConnectorAsReceiver.find_invoice
      { status := 500, invoiceBody := Except.error "", errorBody := Except.error "" }
      [] { lightning_cltv_expiry := 0, ethereum_identity := 0,
           ethereum_absolute_expiry := 0, lightning_amount := 0 }
      halight.InvoiceState.Open = Except.ok none ∧
    ∃ e, halight.LndConnectorAsReceiver.find_invoice
      { status := 503, invoiceBody := Except.error "",
        errorBody := Except.ok { error := "e", message := "m", code := 2 } }
      [] { lightning_cltv_expiry := 0, ethereum_identity := 0,
           ethereum_absolute_expiry := 0, lightning_amount := 0 }
      halight.InvoiceState.Open = Except.error e :=
  ⟨(C3_only_500_is_retried_silently.1 _ [] _ _).1 rfl,
    (C3_only_500_is_retried_silently.1 _ [] _ _).2 (by decide) (by decide)⟩
